import Mathlib

/-!
# Shallow embedding of `src/data_quality_reconciliation.py`

The script is a single-pass pandas pipeline:
normalize raw rows into transactions (STEP 1), derive master records
(STEP 2), emit a static rule table (STEP 3), compute a data-quality
report (STEP 4), evaluate rules R003/R004 (STEP 5), left-merge
transactions against master and evaluate R005 (STEP 6).

Embedding conventions:
* A raw row models one CSV row after `pd.read_csv` / `pd.to_numeric`:
  `quantity` and `price` are `Option Int` (`none` = NaN, i.e. missing or
  a coercion failure, which `errors='coerce'` turns into NaN); the date
  is carried as an opaque string.
* The raw customer cell is `Option RawCust`: `none` is a null cell
  (`pd.notnull` fails), `RawCust.intLike n` is a value on which Python's
  `int(x)` succeeds returning `n`, and `RawCust.malformed s` is a value
  on which `int(x)` raises (the script then aborts, modelled as
  `Except.error`).
* Numeric amounts are `Int`; only order and sign matter to the rules.
  A NaN amount compares as not-less-than-zero, exactly as in pandas,
  hence `Option Int` with a `none`-is-false comparison.
* String-typed columns of the embedding (`txn_id`, names, dates kept as
  strings) can never be null, so their null counts are 0; the two
  genuinely nullable columns (`customer_id`, `amount`) are counted.
* `datetime.now()` is the one non-deterministic input of the script; it
  is modelled as an explicit `now : String` parameter stamped into the
  data-quality report, so determinism of the other outputs is a real
  statement about independence from `now`.
-/

/-- A raw customer cell value on which `pd.notnull` holds: either
`int(x)` succeeds with value `n`, or `int(x)` raises. -/
inductive RawCust where
  | intLike : Int → RawCust
  | malformed : String → RawCust
deriving DecidableEq

/-- One input row, after CSV load and numeric coercion of
`quantity`/`price` (line 23-24 of the script): `none` models NaN. -/
structure RawRow where
  invoice : String
  stockcode : String
  description : String
  quantity : Option Int
  invoicedate : String
  price : Option Int
  customer : Option RawCust
  country : String
deriving DecidableEq

/-- A normalized transaction (the `transactions` frame, line 40). -/
structure Transaction where
  txn_id : String
  customer_id : Option String
  amount : Option Int
  txn_date : String
  invoice : String
  stockcode : String
  description : String
  country : String
deriving DecidableEq

/-- A master record (the `master` frame, lines 45-47). -/
structure MasterRecord where
  customer_id : String
  customer_name : String
  account_status : String
deriving DecidableEq

/-- One row of the reconciliation result (line 109-114): the transaction,
the joined master fields (null when unmatched), and the match status. -/
structure ReconciledTransaction where
  txn : Transaction
  master : Option MasterRecord
  match_status : String
deriving DecidableEq

/-- One exception row (the dicts appended to `exceptions`). -/
structure RuleException where
  rule_id : String
  description : String
  txn_id : String
  customer_id : Option String
  severity : String
deriving DecidableEq

/-- One row of the data-quality report (`check_nulls` output plus the
`timestamp` column added at line 76). -/
structure DQFinding where
  column : String
  null_count : Nat
  table : String
  timestamp : String
deriving DecidableEq

/-- One row of the static rule table (lines 52-56). -/
structure ReconciliationRule where
  rule_id : String
  description : String
  severity : String
deriving DecidableEq

/-- The decimal digit characters, as produced by Python's `str` on a
digit in 0..9 (every argument of `digitChar` in this file is < 10). -/
def digitChar : Nat → Char
  | 0 => '0'
  | 1 => '1'
  | 2 => '2'
  | 3 => '3'
  | 4 => '4'
  | 5 => '5'
  | 6 => '6'
  | 7 => '7'
  | 8 => '8'
  | _ => '9'

/-- Little-endian decimal digits, with explicit fuel so that the
recursion is structural (`fuel > n` always suffices, since a number has
no more decimal digits than its own value plus one). -/
def natDigitsAux : Nat → Nat → List Char
  | 0, _ => []
  | fuel + 1, n =>
      if n < 10 then [digitChar n]
      else digitChar (n % 10) :: natDigitsAux fuel (n / 10)

/-- Little-endian decimal digits of a natural number. -/
def natDigitsLE (n : Nat) : List Char :=
  natDigitsAux (n + 1) n

/-- Decimal string of a natural number, as Python's `str(n)` renders the
row index (most-significant digit first). -/
def natStr (n : Nat) : String :=
  String.mk (natDigitsLE n).reverse

/-- `str(int(x)) if pd.notnull(x) else None` (line 34): a null cell stays
null, an int-coercible cell becomes its integer rendered as a string, and
anything `int` rejects raises, aborting the run. -/
def normCust : Option RawCust → Except String (Option String)
  | none => Except.ok none
  | some (RawCust.intLike n) => Except.ok (some (toString n))
  | some (RawCust.malformed s) =>
      Except.error ("invalid literal for int(): " ++ s)

/-- `amount = quantity * price` (line 27); NaN if either factor is NaN. -/
def rawAmount (r : RawRow) : Option Int :=
  match r.quantity, r.price with
  | some q, some p => some (q * p)
  | _, _ => none

/-- Normalize rows starting at zero-based ordinal `i`:
`txn_id = invoice + "-" + str(index)` (line 31), customer normalization
(line 34), `txn_date = invoicedate` (line 37), passthrough of the
descriptive columns.  The first `int()` failure aborts the whole run. -/
def normalizeFrom : Nat → List RawRow → Except String (List Transaction)
  | _, [] => Except.ok []
  | i, r :: rs =>
    match normCust r.customer with
    | Except.error e => Except.error e
    | Except.ok c =>
      match normalizeFrom (i + 1) rs with
      | Except.error e => Except.error e
      | Except.ok ts =>
          Except.ok
            ({ txn_id := r.invoice ++ "-" ++ natStr i
               customer_id := c
               amount := rawAmount r
               txn_date := r.invoicedate
               invoice := r.invoice
               stockcode := r.stockcode
               description := r.description
               country := r.country } :: ts)

/-- The Record Normalizer (STEP 1): row ordinals start at 0, as after
`reset_index(drop=False)` on a freshly loaded frame. -/
def normalizeRows (rows : List RawRow) : Except String (List Transaction) :=
  normalizeFrom 0 rows

/-- First-seen de-duplication, as `drop_duplicates()` keeps the first
occurrence; `seen` accumulates the keys already emitted. -/
def dedupFirst (seen : List String) : List String → List String
  | [] => []
  | x :: xs =>
      if x ∈ seen then dedupFirst seen xs
      else x :: dedupFirst (x :: seen) xs

/-- `transactions[['customer_id']].dropna().drop_duplicates()` (line 45):
the distinct non-null customer ids, in first-seen order. -/
def masterIds (ts : List Transaction) : List String :=
  dedupFirst [] (ts.filterMap (fun t => t.customer_id))

/-- The Master Deriver (STEP 2): wrap each distinct id with
`customer_name = "cust_" + id` and `account_status = "ACTIVE"`. -/
def deriveMaster (ts : List Transaction) : List MasterRecord :=
  (masterIds ts).map (fun c =>
    { customer_id := c
      customer_name := "cust_" ++ c
      account_status := "ACTIVE" })

/-- The static rule table (STEP 3, lines 52-56). -/
def rulesTable : List ReconciliationRule :=
  [ { rule_id := "R003", description := "Customer not found in master",
      severity := "blocking" },
    { rule_id := "R004", description := "Negative transaction amount",
      severity := "high" },
    { rule_id := "R005", description := "Unmatched transaction record",
      severity := "high" } ]

/-- `check_nulls(master, 'master_records')` (lines 61-65): per-column
null count; every master column is a non-null string in the embedding. -/
def checkNullsMaster (ms : List MasterRecord) (now : String) :
    List DQFinding :=
  [ { column := "customer_id",
      null_count := (ms.filter (fun _ => false)).length,
      table := "master_records", timestamp := now },
    { column := "customer_name",
      null_count := (ms.filter (fun _ => false)).length,
      table := "master_records", timestamp := now },
    { column := "account_status",
      null_count := (ms.filter (fun _ => false)).length,
      table := "master_records", timestamp := now } ]

/-- `check_nulls(transactions, 'transactions')`: per-column null counts
of the transactions frame, in its column order (line 40);
`customer_id` and `amount` are the nullable columns. -/
def checkNullsTransactions (ts : List Transaction) (now : String) :
    List DQFinding :=
  [ { column := "txn_id",
      null_count := (ts.filter (fun _ => false)).length,
      table := "transactions", timestamp := now },
    { column := "customer_id",
      null_count := (ts.filter (fun t => t.customer_id.isNone)).length,
      table := "transactions", timestamp := now },
    { column := "amount",
      null_count := (ts.filter (fun t => t.amount.isNone)).length,
      table := "transactions", timestamp := now },
    { column := "txn_date",
      null_count := (ts.filter (fun _ => false)).length,
      table := "transactions", timestamp := now },
    { column := "invoice",
      null_count := (ts.filter (fun _ => false)).length,
      table := "transactions", timestamp := now },
    { column := "stockcode",
      null_count := (ts.filter (fun _ => false)).length,
      table := "transactions", timestamp := now },
    { column := "description",
      null_count := (ts.filter (fun _ => false)).length,
      table := "transactions", timestamp := now },
    { column := "country",
      null_count := (ts.filter (fun _ => false)).length,
      table := "transactions", timestamp := now } ]

/-- `master[master.duplicated(subset=['customer_id'], keep=False)]`
(line 73): every master row whose `customer_id` occurs more than once.
Computed by the script and then never used. -/
def dupMaster (ms : List MasterRecord) : List MasterRecord :=
  ms.filter (fun m =>
    1 < (ms.map (fun x => x.customer_id)).count m.customer_id)

/-- `transactions[transactions.duplicated(subset=['txn_id'], keep=False)]`
(line 74): every transaction whose `txn_id` occurs more than once.
Computed by the script and then never used. -/
def dupTxn (ts : List Transaction) : List Transaction :=
  ts.filter (fun t =>
    1 < (ts.map (fun x => x.txn_id)).count t.txn_id)

/-- The Data-Quality Auditor's report (lines 67-77): the concatenated
null summaries of master and transactions, stamped with the wall-clock
timestamp.  The duplicate frames `dupMaster`/`dupTxn` are **not** part
of it — the script computes them and discards them. -/
def dqReport (ms : List MasterRecord) (ts : List Transaction)
    (now : String) : List DQFinding :=
  checkNullsMaster ms now ++ checkNullsTransactions ts now

/-- The R003 filter (lines 84-87): non-null `customer_id` not contained
in the master id column. -/
def r003Pred (ids : List String) (t : Transaction) : Bool :=
  match t.customer_id with
  | some c => decide (c ∉ ids)
  | none => false

/-- R003 exceptions (lines 88-95), in transaction order. -/
def r003Excs (ts : List Transaction) (ids : List String) :
    List RuleException :=
  (ts.filter (r003Pred ids)).map (fun t =>
    { rule_id := "R003", description := "Customer not found in master",
      txn_id := t.txn_id, customer_id := t.customer_id,
      severity := "blocking" })

/-- The R004 filter (line 98): `amount < 0`; a NaN amount compares
false, as in pandas. -/
def r004Pred (t : Transaction) : Bool :=
  match t.amount with
  | some a => decide (a < 0)
  | none => false

/-- R004 exceptions (lines 99-106), in transaction order. -/
def r004Excs (ts : List Transaction) : List RuleException :=
  (ts.filter r004Pred).map (fun t =>
    { rule_id := "R004",
      description := "Negative transaction amount (return or cancellation)",
      txn_id := t.txn_id, customer_id := t.customer_id,
      severity := "high" })

/-- The Reconciler (STEP 6): pandas left merge on `customer_id` with the
`_merge` indicator mapped to MATCHED/UNMATCHED.  A left row with no key
match yields one UNMATCHED row with null master fields; a left row with
matches yields one MATCHED row per matching master row (fan-out exactly
as `merge(how='left')` would). -/
def leftMerge (ts : List Transaction) (ms : List MasterRecord) :
    List ReconciledTransaction :=
  match ts with
  | [] => []
  | t :: rest =>
    (match ms.filter (fun m => t.customer_id == some m.customer_id) with
     | [] => [{ txn := t, master := none, match_status := "UNMATCHED" }]
     | hits =>
         hits.map (fun m =>
           { txn := t, master := some m, match_status := "MATCHED" }))
    ++ leftMerge rest ms

/-- R005 exceptions (lines 117-124): one per UNMATCHED reconciled row,
in reconciliation (= transaction) order. -/
def r005Excs (rs : List ReconciledTransaction) : List RuleException :=
  (rs.filter (fun r => r.match_status == "UNMATCHED")).map (fun r =>
    { rule_id := "R005", description := "Unmatched transaction record",
      txn_id := r.txn.txn_id, customer_id := r.txn.customer_id,
      severity := "high" })

/-- Everything the engine writes: the transactions, master,
reconciliation and exception tables, and the data-quality report. -/
structure EngineOutput where
  transactions : List Transaction
  master : List MasterRecord
  reconciled : List ReconciledTransaction
  exceptions : List RuleException
  dq : List DQFinding
deriving DecidableEq, Inhabited

/-- The whole pipeline (STEP 1 - STEP 6): normalize, derive master,
audit, evaluate R003 and R004 on transactions, reconcile, evaluate R005
on the reconciliation, and concatenate the exception list in the order
the script appends to `exceptions`.  A normalization failure (line 34
raising) aborts the run with no outputs at all. -/
def runPipeline (rows : List RawRow) (now : String) :
    Except String EngineOutput :=
  match normalizeRows rows with
  | Except.error e => Except.error e
  | Except.ok ts =>
      let ms := deriveMaster ts
      let recon := leftMerge ts ms
      Except.ok
        { transactions := ts
          master := ms
          reconciled := recon
          exceptions :=
            r003Excs ts (ms.map (fun m => m.customer_id))
              ++ r004Excs ts ++ r005Excs recon
          dq := dqReport ms ts now }

/-- Presentation rank of a rule id, for the fixed output order
R003, R004, R005. -/
def ruleRank (r : String) : Nat :=
  if r = "R003" then 0 else if r = "R004" then 1 else 2

/-- `True` exactly when the raw customer cell is present but `int()`
rejects it. -/
def hasMalformedCust (r : RawRow) : Bool :=
  match r.customer with
  | some (RawCust.malformed _) => true
  | _ => false

/-! ## Decimal-string facts

`txn_id = invoice + "-" + str(index)`: distinct indices give distinct
ids because the decimal rendering of the index is the digits-only tail
after the last hyphen of the id. -/

theorem digitChar_ne_dash (d : Nat) : digitChar d ≠ '-' := by
  unfold digitChar
  split <;> decide

theorem digitChar_inj (d₁ d₂ : Nat) (h₁ : d₁ < 10) (h₂ : d₂ < 10)
    (h : digitChar d₁ = digitChar d₂) : d₁ = d₂ := by
  interval_cases d₁ <;> interval_cases d₂ <;> revert h <;> decide

theorem natDigitsAux_ne_nil (fuel n : Nat) (h : n < fuel) :
    natDigitsAux fuel n ≠ [] := by
  cases fuel with
  | zero => omega
  | succ f =>
      unfold natDigitsAux
      split <;> simp

theorem dash_not_mem_natDigitsAux :
    ∀ fuel n, n < fuel → '-' ∉ natDigitsAux fuel n := by
  intro fuel
  induction fuel with
  | zero => intro n h; omega
  | succ f ih =>
      intro n h
      by_cases h10 : n < 10
      · simp only [natDigitsAux, if_pos h10, List.mem_singleton]
        exact fun heq => digitChar_ne_dash n heq.symm
      · simp only [natDigitsAux, if_neg h10, List.mem_cons, not_or]
        exact ⟨fun heq => digitChar_ne_dash _ heq.symm,
          ih (n / 10) (by omega)⟩

theorem natDigitsAux_inj :
    ∀ f₁ m, m < f₁ → ∀ f₂ n, n < f₂ →
      natDigitsAux f₁ m = natDigitsAux f₂ n → m = n := by
  intro f₁
  induction f₁ with
  | zero => intro m hm; omega
  | succ f ih =>
      intro m hm f₂ n hn h
      cases f₂ with
      | zero => omega
      | succ g =>
          by_cases hm10 : m < 10 <;> by_cases hn10 : n < 10 <;>
            simp only [natDigitsAux, if_pos, if_neg, hm10, hn10,
              if_true, if_false, List.cons.injEq] at h
          · exact digitChar_inj m n hm10 hn10 h.1
          · exact absurd h.2.symm (natDigitsAux_ne_nil g (n / 10) (by omega))
          · exact absurd h.2 (natDigitsAux_ne_nil f (m / 10) (by omega))
          · have e1 : m % 10 = n % 10 :=
              digitChar_inj _ _ (by omega) (by omega) h.1
            have e2 : m / 10 = n / 10 :=
              ih (m / 10) (by omega) g (n / 10) (by omega) h.2
            omega

theorem natDigitsLE_inj (m n : Nat) (h : natDigitsLE m = natDigitsLE n) :
    m = n :=
  natDigitsAux_inj (m + 1) m (by omega) (n + 1) n (by omega) h

theorem dash_not_mem_natDigitsLE (n : Nat) : '-' ∉ natDigitsLE n :=
  dash_not_mem_natDigitsAux (n + 1) n (by omega)

/-- If two character lists agree and each is `digits ++ '-' :: rest`
with no hyphen among the digits, the digit blocks agree. -/
theorem append_dash_inj :
    ∀ xs ys us vs : List Char, '-' ∉ xs → '-' ∉ ys →
      xs ++ '-' :: us = ys ++ '-' :: vs → xs = ys ∧ us = vs := by
  intro xs
  induction xs with
  | nil =>
      intro ys us vs _ hy h
      cases ys with
      | nil =>
          simp only [List.nil_append, List.cons.injEq] at h
          exact ⟨rfl, h.2⟩
      | cons y ys' =>
          simp only [List.nil_append, List.cons_append,
            List.cons.injEq] at h
          exact absurd (h.1 ▸ List.mem_cons_self y ys') hy
  | cons x xs' ih =>
      intro ys us vs hx hy h
      cases ys with
      | nil =>
          simp only [List.nil_append, List.cons_append,
            List.cons.injEq] at h
          exact absurd (h.1 ▸ List.mem_cons_self x xs') hx
      | cons y ys' =>
          simp only [List.cons_append, List.cons.injEq] at h
          have hx' : '-' ∉ xs' := fun hm => hx (List.mem_cons_of_mem _ hm)
          have hy' : '-' ∉ ys' := fun hm => hy (List.mem_cons_of_mem _ hm)
          obtain ⟨h1, h2⟩ := ih ys' us vs hx' hy' h.2
          exact ⟨by rw [h.1, h1], h2⟩

/-- Distinct row ordinals give distinct `txn_id` strings, whatever the
invoice identifiers are (the ordinal is the all-digit block after the
last hyphen). -/
theorem txnId_inj (s₁ s₂ : String) (i j : Nat)
    (h : s₁ ++ "-" ++ natStr i = s₂ ++ "-" ++ natStr j) : i = j := by
  have hd := congrArg String.data h
  simp only [String.data_append, natStr] at hd
  have hrev := congrArg List.reverse hd
  simp only [List.reverse_append, List.reverse_cons, List.reverse_reverse,
    List.append_assoc, List.singleton_append, List.nil_append] at hrev
  obtain ⟨hdig, _⟩ := append_dash_inj _ _ _ _
    (dash_not_mem_natDigitsLE i) (dash_not_mem_natDigitsLE j) hrev
  exact natDigitsLE_inj i j hdig

/-! ## De-duplication and master derivation -/

theorem mem_dedupFirst :
    ∀ (xs seen : List String) (c : String),
      c ∈ dedupFirst seen xs ↔ c ∈ xs ∧ c ∉ seen := by
  intro xs
  induction xs with
  | nil => intro seen c; simp [dedupFirst]
  | cons x xs' ih =>
      intro seen c
      by_cases hx : x ∈ seen
      · simp only [dedupFirst, if_pos hx, ih, List.mem_cons]
        constructor
        · rintro ⟨h1, h2⟩
          exact ⟨Or.inr h1, h2⟩
        · rintro ⟨h1 | h1, h2⟩
          · subst h1; exact absurd hx h2
          · exact ⟨h1, h2⟩
      · simp only [dedupFirst, if_neg hx, List.mem_cons, ih, not_or]
        constructor
        · rintro (rfl | ⟨h1, h2, h3⟩)
          · exact ⟨Or.inl rfl, hx⟩
          · exact ⟨Or.inr h1, h3⟩
        · rintro ⟨h1 | h1, h2⟩
          · exact Or.inl h1
          · by_cases hcx : c = x
            · exact Or.inl hcx
            · exact Or.inr ⟨h1, hcx, h2⟩

theorem nodup_dedupFirst :
    ∀ (xs seen : List String), (dedupFirst seen xs).Nodup := by
  intro xs
  induction xs with
  | nil => intro seen; simp [dedupFirst]
  | cons x xs' ih =>
      intro seen
      by_cases hx : x ∈ seen
      · simpa only [dedupFirst, if_pos hx] using ih seen
      · simp only [dedupFirst, if_neg hx, List.nodup_cons]
        refine ⟨fun hmem => ?_, ih (x :: seen)⟩
        exact ((mem_dedupFirst xs' (x :: seen) x).mp hmem).2
          (List.mem_cons_self x seen)

theorem nodup_masterIds (ts : List Transaction) : (masterIds ts).Nodup :=
  nodup_dedupFirst _ []

theorem mem_masterIds (ts : List Transaction) (c : String) :
    c ∈ masterIds ts ↔ ∃ t ∈ ts, t.customer_id = some c := by
  simp [masterIds, mem_dedupFirst, List.mem_filterMap]

theorem deriveMaster_ids (ts : List Transaction) :
    (deriveMaster ts).map (fun m => m.customer_id) = masterIds ts := by
  rw [deriveMaster, List.map_map]
  exact List.map_id (masterIds ts)

/-! ## Normalizer facts -/

/-- Successful normalization yields one transaction per row; every
`txn_id` is `invoice ++ "-" ++ natStr ordinal` with an ordinal at least
the starting ordinal, and the ids are pairwise distinct. -/
theorem normalizeFrom_ok :
    ∀ (rows : List RawRow) (i : Nat) (ts : List Transaction),
      normalizeFrom i rows = Except.ok ts →
      ts.length = rows.length ∧
      (∀ t ∈ ts, ∃ s m, i ≤ m ∧ t.txn_id = s ++ "-" ++ natStr m) ∧
      (ts.map (fun t => t.txn_id)).Nodup := by
  intro rows
  induction rows with
  | nil =>
      intro i ts h
      simp only [normalizeFrom, Except.ok.injEq] at h
      subst h
      simp
  | cons r rs ih =>
      intro i ts h
      simp only [normalizeFrom] at h
      cases hc : normCust r.customer with
      | error e => rw [hc] at h; cases h
      | ok c =>
          rw [hc] at h
          cases hrec : normalizeFrom (i + 1) rs with
          | error e => rw [hrec] at h; cases h
          | ok ts' =>
              rw [hrec] at h
              cases h
              obtain ⟨hlen, hforms, hnodup⟩ := ih (i + 1) ts' hrec
              refine ⟨by simp [hlen], ?_, ?_⟩
              · intro t ht
                rcases List.mem_cons.mp ht with rfl | ht'
                · exact ⟨r.invoice, i, le_refl i, rfl⟩
                · obtain ⟨s, m, hm, he⟩ := hforms t ht'
                  exact ⟨s, m, by omega, he⟩
              · rw [List.map_cons, List.nodup_cons]
                refine ⟨fun hmem => ?_, hnodup⟩
                obtain ⟨t', ht', he⟩ := List.mem_map.mp hmem
                obtain ⟨s, m, hm, hform⟩ := hforms t' ht'
                have : m = i := txnId_inj s r.invoice m i (by
                  rw [← hform, he])
                omega

/-- The length part on its own: the Normalizer preserves row count. -/
theorem normalizeRows_length (rows : List RawRow) (ts : List Transaction)
    (h : normalizeRows rows = Except.ok ts) : ts.length = rows.length :=
  (normalizeFrom_ok rows 0 ts h).1

/-! ## Pipeline inversion -/

/-- Unfolding a successful run into its stages. -/
theorem runPipeline_ok (rows : List RawRow) (now : String)
    (out : EngineOutput) (h : runPipeline rows now = Except.ok out) :
    normalizeRows rows = Except.ok out.transactions ∧
    out.master = deriveMaster out.transactions ∧
    out.reconciled = leftMerge out.transactions out.master ∧
    out.exceptions =
      r003Excs out.transactions (out.master.map (fun m => m.customer_id))
        ++ r004Excs out.transactions ++ r005Excs out.reconciled ∧
    out.dq = dqReport out.master out.transactions now := by
  unfold runPipeline at h
  cases hn : normalizeRows rows with
  | error e => rw [hn] at h; cases h
  | ok ts =>
      rw [hn] at h
      cases h
      exact ⟨rfl, rfl, rfl, rfl, rfl⟩

/-! ## Reconciler facts -/

/-- With pairwise-distinct master keys (true of the derived master set),
at most one master row matches any transaction key. -/
theorem filter_key_length (ms : List MasterRecord) (k : Option String)
    (h : (ms.map (fun m => m.customer_id)).Nodup) :
    (ms.filter (fun m => k == some m.customer_id)).length ≤ 1 := by
  induction ms with
  | nil => simp
  | cons m ms' ih =>
      rw [List.map_cons, List.nodup_cons] at h
      rw [List.filter_cons]
      by_cases hk : (k == some m.customer_id) = true
      · rw [if_pos hk]
        have hkm : k = some m.customer_id := beq_iff_eq.mp hk
        have hnil : ms'.filter (fun x => k == some x.customer_id) = [] := by
          rw [List.filter_eq_nil_iff]
          intro x hx hpx
          have hkx : k = some x.customer_id := beq_iff_eq.mp hpx
          apply h.1
          refine List.mem_map.mpr ⟨x, hx, ?_⟩
          have hmx : some m.customer_id = some x.customer_id := by
            rw [← hkm, hkx]
          exact (Option.some.inj hmx).symm
        rw [hnil]
        simp
      · rw [if_neg hk]
        exact ih h.2

/-- The left merge returns the transactions in order, exactly one
reconciled row per transaction, provided the master keys are distinct. -/
theorem leftMerge_map_txn :
    ∀ (ts : List Transaction) (ms : List MasterRecord),
      (ms.map (fun m => m.customer_id)).Nodup →
      (leftMerge ts ms).map (fun r => r.txn) = ts := by
  intro ts
  induction ts with
  | nil => intro ms _; simp [leftMerge]
  | cons t rest ih =>
      intro ms h
      simp only [leftMerge]
      rw [List.map_append, ih ms h]
      cases hfil : ms.filter (fun m => t.customer_id == some m.customer_id) with
      | nil => simp
      | cons m hits' =>
          have hlen := filter_key_length ms t.customer_id h
          rw [hfil] at hlen
          have hnil : hits' = [] := by
            rw [List.length_cons] at hlen
            exact List.eq_nil_of_length_eq_zero (by omega)
          subst hnil
          simp

/-- Every row of the left merge carries one of the two statuses, and is
MATCHED exactly when its transaction key is a present master key. -/
theorem leftMerge_mem :
    ∀ (ts : List Transaction) (ms : List MasterRecord)
      (r : ReconciledTransaction), r ∈ leftMerge ts ms →
      r.txn ∈ ts ∧
      (r.match_status = "MATCHED" ↔
        ∃ c, r.txn.customer_id = some c ∧
          c ∈ ms.map (fun m => m.customer_id)) ∧
      (r.match_status = "MATCHED" ∨ r.match_status = "UNMATCHED") := by
  intro ts
  induction ts with
  | nil => intro ms r hr; simp [leftMerge] at hr
  | cons t rest ih =>
      intro ms r hr
      simp only [leftMerge] at hr
      rcases List.mem_append.mp hr with hr | hr
      · cases hfil : ms.filter (fun m => t.customer_id == some m.customer_id) with
        | nil =>
            rw [hfil] at hr
            rw [List.mem_singleton] at hr
            subst hr
            refine ⟨List.mem_cons_self t rest, ?_, Or.inr rfl⟩
            constructor
            · intro hstat
              have h' : ("UNMATCHED" : String) = "MATCHED" := hstat
              exact absurd h' (by decide)
            · rintro ⟨c, hc, hmem⟩
              have hc' : t.customer_id = some c := hc
              obtain ⟨m, hm, hmc⟩ := List.mem_map.mp hmem
              have hmf : m ∈ ms.filter
                  (fun m => t.customer_id == some m.customer_id) := by
                refine List.mem_filter.mpr ⟨hm, ?_⟩
                rw [hc', hmc]
                simp
              rw [hfil] at hmf
              cases hmf
        | cons m0 hits' =>
            rw [hfil] at hr
            obtain ⟨m, hm, rfl⟩ := List.mem_map.mp hr
            have hmf : m ∈ ms.filter
                (fun m => t.customer_id == some m.customer_id) := by
              rw [hfil]; exact hm
            obtain ⟨hmem, hpred⟩ := List.mem_filter.mp hmf
            refine ⟨List.mem_cons_self t rest, ?_, Or.inl rfl⟩
            constructor
            · intro _
              exact ⟨m.customer_id, beq_iff_eq.mp hpred,
                List.mem_map_of_mem _ hmem⟩
            · intro _
              rfl
      · obtain ⟨h1, h2, h3⟩ := ih ms r hr
        exact ⟨List.mem_cons_of_mem _ h1, h2, h3⟩

/-! ## Rule Evaluator facts -/

theorem r004Pred_iff (t : Transaction) :
    r004Pred t = true ↔ ∃ a, t.amount = some a ∧ a < 0 := by
  unfold r004Pred
  cases t.amount with
  | none => simp
  | some a => simp

theorem mem_r003Excs_rule (ts : List Transaction) (ids : List String)
    (e : RuleException) (h : e ∈ r003Excs ts ids) : e.rule_id = "R003" := by
  unfold r003Excs at h
  obtain ⟨t, _, rfl⟩ := List.mem_map.mp h
  rfl

theorem mem_r004Excs_rule (ts : List Transaction) (e : RuleException)
    (h : e ∈ r004Excs ts) : e.rule_id = "R004" := by
  unfold r004Excs at h
  obtain ⟨t, _, rfl⟩ := List.mem_map.mp h
  rfl

theorem mem_r005Excs_rule (rs : List ReconciledTransaction)
    (e : RuleException) (h : e ∈ r005Excs rs) : e.rule_id = "R005" := by
  unfold r005Excs at h
  obtain ⟨r, _, rfl⟩ := List.mem_map.mp h
  rfl

theorem mem_r005Excs_iff (rs : List ReconciledTransaction) (id : String) :
    (∃ e ∈ r005Excs rs, e.txn_id = id) ↔
      ∃ r ∈ rs, r.match_status = "UNMATCHED" ∧ r.txn.txn_id = id := by
  unfold r005Excs
  constructor
  · rintro ⟨e, he, hid⟩
    obtain ⟨r, hrr, rfl⟩ := List.mem_map.mp he
    obtain ⟨hr', hp⟩ := List.mem_filter.mp hrr
    exact ⟨r, hr', beq_iff_eq.mp hp, hid⟩
  · rintro ⟨r, hrr, hp, hid⟩
    exact ⟨_, List.mem_map_of_mem _
      (List.mem_filter.mpr ⟨hrr, beq_iff_eq.mpr hp⟩), hid⟩

theorem r003Excs_map_txn (ts : List Transaction) (ids : List String) :
    (r003Excs ts ids).map (fun e => e.txn_id) =
      (ts.filter (r003Pred ids)).map (fun t => t.txn_id) := by
  unfold r003Excs
  rw [List.map_map]
  rfl

theorem r004Excs_map_txn (ts : List Transaction) :
    (r004Excs ts).map (fun e => e.txn_id) =
      (ts.filter r004Pred).map (fun t => t.txn_id) := by
  unfold r004Excs
  rw [List.map_map]
  rfl

theorem r005Excs_map_txn (rs : List ReconciledTransaction) :
    (r005Excs rs).map (fun e => e.txn_id) =
      (rs.filter (fun r => r.match_status == "UNMATCHED")).map
        (fun r => r.txn.txn_id) := by
  unfold r005Excs
  rw [List.map_map]
  rfl

/-! ## Error propagation -/

/-- A present-but-uncoercible customer cell anywhere in the input makes
normalization fail, whatever the starting ordinal. -/
theorem normalizeFrom_error (rows : List RawRow) :
    ∀ i, (∃ r ∈ rows, hasMalformedCust r = true) →
      ∃ msg, normalizeFrom i rows = Except.error msg := by
  induction rows with
  | nil => intro i h; simp at h
  | cons r rs ih =>
      intro i h
      by_cases hr : hasMalformedCust r = true
      · cases hc : r.customer with
        | none => rw [hasMalformedCust, hc] at hr; simp at hr
        | some rc =>
            cases rc with
            | intLike n => rw [hasMalformedCust, hc] at hr; simp at hr
            | malformed s =>
                refine ⟨"invalid literal for int(): " ++ s, ?_⟩
                simp [normalizeFrom, hc, normCust]
      · have h' : ∃ x ∈ rs, hasMalformedCust x = true := by
          obtain ⟨x, hx, hmx⟩ := h
          rcases List.mem_cons.mp hx with rfl | hx'
          · exact absurd hmx hr
          · exact ⟨x, hx', hmx⟩
        obtain ⟨msg, hmsg⟩ := ih (i + 1) h'
        cases hcn : normCust r.customer with
        | error e => exact ⟨e, by simp [normalizeFrom, hcn]⟩
        | ok c => exact ⟨msg, by simp [normalizeFrom, hcn, hmsg]⟩

/-! ## Test fixtures (the scenario of spec §8) -/

/-- Two raw rows: invoice A1 with a known customer, then invoice A1 with
a null customer and a negative quantity. -/
def sampleRows : List RawRow :=
  [ { invoice := "A1", stockcode := "S1", description := "widget",
      quantity := some 2, invoicedate := "2021-01-01", price := some 3,
      customer := some (RawCust.intLike 7), country := "UK" },
    { invoice := "A1", stockcode := "S2", description := "gadget",
      quantity := some (-1), invoicedate := "2021-01-01", price := some 5,
      customer := none, country := "UK" } ]

/-- The run of the engine on `sampleRows` at timestamp `"t0"`. -/
def sampleOut : EngineOutput :=
  match runPipeline sampleRows "t0" with
  | Except.ok o => o
  | Except.error _ => default

/-- The run of the engine on `sampleRows` at timestamp `"t1"`. -/
def sampleOut2 : EngineOutput :=
  match runPipeline sampleRows "t1" with
  | Except.ok o => o
  | Except.error _ => default

/-- One raw row whose customer cell is present but not int-coercible. -/
def badRows : List RawRow :=
  [ { invoice := "B1", stockcode := "S1", description := "widget",
      quantity := some 1, invoicedate := "2021-01-01", price := some 1,
      customer := some (RawCust.malformed "abc"), country := "UK" } ]

example : runPipeline sampleRows "t0" = Except.ok sampleOut := rfl

example : sampleOut.exceptions.map (fun e => (e.rule_id, e.txn_id)) =
    [("R004", "A1-1"), ("R005", "A1-1")] := rfl

/-! ## Claims -/

/-- **C1** (join correctness): in every run, a reconciled row has
`match_status = "MATCHED"` iff its transaction's `customer_id` is
non-null and occurs among the master set's customer ids; in every other
case the status is `"UNMATCHED"`. -/
theorem claim1_join_correctness (rows : List RawRow) (now : String)
    (out : EngineOutput) (h : runPipeline rows now = Except.ok out) :
    ∀ r ∈ out.reconciled,
      (r.match_status = "MATCHED" ↔
        ∃ c, r.txn.customer_id = some c ∧
          c ∈ out.master.map (fun m => m.customer_id)) ∧
      (r.match_status ≠ "MATCHED" → r.match_status = "UNMATCHED") := by
  obtain ⟨_, _, hr, _, _⟩ := runPipeline_ok rows now out h
  intro r hrm
  rw [hr] at hrm
  obtain ⟨_, h2, h3⟩ := leftMerge_mem out.transactions out.master r hrm
  exact ⟨h2, fun hne => h3.resolve_left hne⟩

theorem claim1_witness :
    runPipeline sampleRows "t0" = Except.ok sampleOut ∧
    ∀ r ∈ sampleOut.reconciled,
      (r.match_status = "MATCHED" ↔
        ∃ c, r.txn.customer_id = some c ∧
          c ∈ sampleOut.master.map (fun m => m.customer_id)) ∧
      (r.match_status ≠ "MATCHED" → r.match_status = "UNMATCHED") :=
  ⟨rfl, claim1_join_correctness sampleRows "t0" sampleOut rfl⟩

/-- **C2** (coverage): in every run the reconciliation output is exactly
the transaction list, one row per transaction in order — no drops and no
fan-out, because the derived master key set is duplicate-free. -/
theorem claim2_coverage (rows : List RawRow) (now : String)
    (out : EngineOutput) (h : runPipeline rows now = Except.ok out) :
    out.reconciled.map (fun r => r.txn) = out.transactions := by
  obtain ⟨_, hm, hr, _, _⟩ := runPipeline_ok rows now out h
  rw [hr, hm]
  refine leftMerge_map_txn out.transactions (deriveMaster out.transactions) ?_
  rw [deriveMaster_ids]
  exact nodup_masterIds _

theorem claim2_witness :
    runPipeline sampleRows "t0" = Except.ok sampleOut ∧
    sampleOut.reconciled.map (fun r => r.txn) = sampleOut.transactions :=
  ⟨rfl, claim2_coverage sampleRows "t0" sampleOut rfl⟩

/-- **C3** (R004 completeness): the `txn_id`s carrying an R004 exception
are exactly the `txn_id`s of transactions with a negative amount,
regardless of match status. -/
theorem claim3_r004_completeness (rows : List RawRow) (now : String)
    (out : EngineOutput) (h : runPipeline rows now = Except.ok out)
    (id : String) :
    (∃ e ∈ out.exceptions, e.rule_id = "R004" ∧ e.txn_id = id) ↔
      ∃ t ∈ out.transactions,
        (∃ a, t.amount = some a ∧ a < 0) ∧ t.txn_id = id := by
  obtain ⟨_, _, _, he, _⟩ := runPipeline_ok rows now out h
  rw [he]
  constructor
  · rintro ⟨e, hemem, hrule, hid⟩
    rcases List.mem_append.mp hemem with h1 | h1
    · rcases List.mem_append.mp h1 with h2 | h2
      · rw [mem_r003Excs_rule _ _ _ h2] at hrule
        exact absurd hrule (by decide)
      · unfold r004Excs at h2
        obtain ⟨t, ht, rfl⟩ := List.mem_map.mp h2
        obtain ⟨ht', hp⟩ := List.mem_filter.mp ht
        exact ⟨t, ht', (r004Pred_iff t).mp hp, hid⟩
    · rw [mem_r005Excs_rule _ _ h1] at hrule
      exact absurd hrule (by decide)
  · rintro ⟨t, ht, ⟨a, ha, hneg⟩, hid⟩
    refine ⟨{ rule_id := "R004",
              description :=
                "Negative transaction amount (return or cancellation)",
              txn_id := t.txn_id, customer_id := t.customer_id,
              severity := "high" }, ?_, rfl, hid⟩
    refine List.mem_append.mpr (Or.inl (List.mem_append.mpr (Or.inr ?_)))
    unfold r004Excs
    exact List.mem_map_of_mem _
      (List.mem_filter.mpr ⟨ht, (r004Pred_iff t).mpr ⟨a, ha, hneg⟩⟩)

theorem claim3_witness :
    runPipeline sampleRows "t0" = Except.ok sampleOut ∧
    ((∃ e ∈ sampleOut.exceptions,
        e.rule_id = "R004" ∧ e.txn_id = "A1-1") ↔
      ∃ t ∈ sampleOut.transactions,
        (∃ a, t.amount = some a ∧ a < 0) ∧ t.txn_id = "A1-1") :=
  ⟨rfl, claim3_r004_completeness sampleRows "t0" sampleOut rfl "A1-1"⟩

/-- **C4** (R005 completeness): the `txn_id`s carrying an R005 exception
are exactly the `txn_id`s of UNMATCHED reconciled rows. -/
theorem claim4_r005_completeness (rows : List RawRow) (now : String)
    (out : EngineOutput) (h : runPipeline rows now = Except.ok out)
    (id : String) :
    (∃ e ∈ out.exceptions, e.rule_id = "R005" ∧ e.txn_id = id) ↔
      ∃ r ∈ out.reconciled,
        r.match_status = "UNMATCHED" ∧ r.txn.txn_id = id := by
  obtain ⟨_, _, _, he, _⟩ := runPipeline_ok rows now out h
  rw [he]
  constructor
  · rintro ⟨e, hemem, hrule, hid⟩
    rcases List.mem_append.mp hemem with h1 | h1
    · rcases List.mem_append.mp h1 with h2 | h2
      · rw [mem_r003Excs_rule _ _ _ h2] at hrule
        exact absurd hrule (by decide)
      · rw [mem_r004Excs_rule _ _ h2] at hrule
        exact absurd hrule (by decide)
    · exact (mem_r005Excs_iff out.reconciled id).mp ⟨e, h1, hid⟩
  · intro hex
    obtain ⟨e, he', hid⟩ := (mem_r005Excs_iff out.reconciled id).mpr hex
    exact ⟨e, List.mem_append.mpr (Or.inr he'),
      mem_r005Excs_rule _ _ he', hid⟩

theorem claim4_witness :
    runPipeline sampleRows "t0" = Except.ok sampleOut ∧
    ((∃ e ∈ sampleOut.exceptions,
        e.rule_id = "R005" ∧ e.txn_id = "A1-1") ↔
      ∃ r ∈ sampleOut.reconciled,
        r.match_status = "UNMATCHED" ∧ r.txn.txn_id = "A1-1") :=
  ⟨rfl, claim4_r005_completeness sampleRows "t0" sampleOut rfl "A1-1"⟩

/-- **C6** (R003 is a no-op here): since the master set is derived from
the very transactions being reconciled, every non-null `customer_id` is a
master key, and no run ever emits an R003 exception. -/
theorem claim6_r003_never_fires (rows : List RawRow) (now : String)
    (out : EngineOutput) (h : runPipeline rows now = Except.ok out) :
    (∀ t ∈ out.transactions, ∀ c, t.customer_id = some c →
        c ∈ out.master.map (fun m => m.customer_id)) ∧
    ∀ e ∈ out.exceptions, e.rule_id ≠ "R003" := by
  obtain ⟨_, hm, _, he, _⟩ := runPipeline_ok rows now out h
  have hids : out.master.map (fun m => m.customer_id) =
      masterIds out.transactions := by
    rw [hm, deriveMaster_ids]
  have hmem : ∀ t ∈ out.transactions, ∀ c, t.customer_id = some c →
      c ∈ out.master.map (fun m => m.customer_id) := by
    intro t ht c hc
    rw [hids]
    exact (mem_masterIds _ c).mpr ⟨t, ht, hc⟩
  refine ⟨hmem, ?_⟩
  intro e he' hrule
  rw [he] at he'
  rcases List.mem_append.mp he' with h1 | h1
  · rcases List.mem_append.mp h1 with h2 | h2
    · unfold r003Excs at h2
      obtain ⟨t, ht, rfl⟩ := List.mem_map.mp h2
      obtain ⟨ht', hp⟩ := List.mem_filter.mp ht
      unfold r003Pred at hp
      cases hc : t.customer_id with
      | none => rw [hc] at hp; simp at hp
      | some c =>
          rw [hc] at hp
          exact (of_decide_eq_true hp) (hmem t ht' c hc)
    · rw [mem_r004Excs_rule _ _ h2] at hrule
      exact absurd hrule (by decide)
  · rw [mem_r005Excs_rule _ _ h1] at hrule
    exact absurd hrule (by decide)

theorem claim6_witness :
    runPipeline sampleRows "t0" = Except.ok sampleOut ∧
    ((∀ t ∈ sampleOut.transactions, ∀ c, t.customer_id = some c →
        c ∈ sampleOut.master.map (fun m => m.customer_id)) ∧
      ∀ e ∈ sampleOut.exceptions, e.rule_id ≠ "R003") :=
  ⟨rfl, claim6_r003_never_fires sampleRows "t0" sampleOut rfl⟩

/-- **C7** (txn_id uniqueness): the Normalizer gives distinct input rows
distinct `txn_id`s — one transaction per row, pairwise-distinct ids. -/
theorem claim7_txn_id_unique (rows : List RawRow) (ts : List Transaction)
    (h : normalizeRows rows = Except.ok ts) :
    ts.length = rows.length ∧ (ts.map (fun t => t.txn_id)).Nodup := by
  obtain ⟨h1, _, h3⟩ := normalizeFrom_ok rows 0 ts h
  exact ⟨h1, h3⟩

theorem claim7_witness :
    normalizeRows sampleRows = Except.ok sampleOut.transactions ∧
    (sampleOut.transactions.length = sampleRows.length ∧
      (sampleOut.transactions.map (fun t => t.txn_id)).Nodup) :=
  ⟨rfl, claim7_txn_id_unique sampleRows sampleOut.transactions rfl⟩

/-- **C9** (determinism): two runs on the same input yield the same
Transaction, Master, Reconciliation and Exception outputs, even with
different wall-clock timestamps (only the data-quality report carries
the timestamp, and it is excluded from the guarantee). -/
theorem claim9_determinism (rows : List RawRow) (now₁ now₂ : String)
    (o₁ o₂ : EngineOutput) (h₁ : runPipeline rows now₁ = Except.ok o₁)
    (h₂ : runPipeline rows now₂ = Except.ok o₂) :
    o₁.transactions = o₂.transactions ∧ o₁.master = o₂.master ∧
    o₁.reconciled = o₂.reconciled ∧ o₁.exceptions = o₂.exceptions := by
  obtain ⟨hn₁, hm₁, hr₁, he₁, _⟩ := runPipeline_ok rows now₁ o₁ h₁
  obtain ⟨hn₂, hm₂, hr₂, he₂, _⟩ := runPipeline_ok rows now₂ o₂ h₂
  rw [hn₁] at hn₂
  have ht : o₁.transactions = o₂.transactions := Except.ok.inj hn₂
  refine ⟨ht, ?_, ?_, ?_⟩
  · rw [hm₁, hm₂, ht]
  · rw [hr₁, hr₂, hm₁, hm₂, ht]
  · rw [he₁, he₂, hr₁, hr₂, hm₁, hm₂, ht]

theorem claim9_witness :
    runPipeline sampleRows "t0" = Except.ok sampleOut ∧
    runPipeline sampleRows "t1" = Except.ok sampleOut2 ∧
    (sampleOut.transactions = sampleOut2.transactions ∧
      sampleOut.master = sampleOut2.master ∧
      sampleOut.reconciled = sampleOut2.reconciled ∧
      sampleOut.exceptions = sampleOut2.exceptions) :=
  ⟨rfl, rfl, claim9_determinism sampleRows "t0" "t1" sampleOut sampleOut2
    rfl rfl⟩

/-- **C10** (malformed customer aborts the run): a customer cell that is
present but rejected by `int()` makes the whole run fail with an error:
no transaction, master, reconciliation or exception output exists. -/
theorem claim10_malformed_aborts (rows : List RawRow) (now : String)
    (h : ∃ r ∈ rows, hasMalformedCust r = true) :
    ∃ msg, runPipeline rows now = Except.error msg := by
  obtain ⟨msg, hmsg⟩ := normalizeFrom_error rows 0 h
  refine ⟨msg, ?_⟩
  unfold runPipeline normalizeRows
  rw [hmsg]

theorem claim10_witness :
    (∃ r ∈ badRows, hasMalformedCust r = true) ∧
    ∃ msg, runPipeline badRows "t0" = Except.error msg :=
  ⟨by decide, claim10_malformed_aborts badRows "t0" (by decide)⟩

/-- **C8** (exception order): the exception list is grouped by rule in
the fixed order R003, R004, R005, and within each rule the exceptions
carry the `txn_id`s of the source rows in their original order (the
transaction list for R003/R004, the reconciliation list for R005, both
of which preserve input order). -/
theorem claim8_exception_order (rows : List RawRow) (now : String)
    (out : EngineOutput) (h : runPipeline rows now = Except.ok out) :
    List.Pairwise
      (fun a b => ruleRank a.rule_id ≤ ruleRank b.rule_id)
      out.exceptions ∧
    (out.exceptions.filter (fun e => e.rule_id == "R003")).map
        (fun e => e.txn_id) =
      (out.transactions.filter
          (r003Pred (out.master.map (fun m => m.customer_id)))).map
        (fun t => t.txn_id) ∧
    (out.exceptions.filter (fun e => e.rule_id == "R004")).map
        (fun e => e.txn_id) =
      (out.transactions.filter r004Pred).map (fun t => t.txn_id) ∧
    (out.exceptions.filter (fun e => e.rule_id == "R005")).map
        (fun e => e.txn_id) =
      (out.reconciled.filter (fun r => r.match_status == "UNMATCHED")).map
        (fun r => r.txn.txn_id) := by
  obtain ⟨_, _, _, he, _⟩ := runPipeline_ok rows now out h
  have hA : ∀ e ∈ r003Excs out.transactions
      (out.master.map (fun m => m.customer_id)), e.rule_id = "R003" :=
    fun e he' => mem_r003Excs_rule _ _ _ he'
  have hB : ∀ e ∈ r004Excs out.transactions, e.rule_id = "R004" :=
    fun e he' => mem_r004Excs_rule _ _ he'
  have hC : ∀ e ∈ r005Excs out.reconciled, e.rule_id = "R005" :=
    fun e he' => mem_r005Excs_rule _ _ he'
  refine ⟨?_, ?_, ?_, ?_⟩
  · rw [he]
    refine List.pairwise_append.mpr
      ⟨List.pairwise_append.mpr ⟨?_, ?_, ?_⟩, ?_, ?_⟩
    · exact List.pairwise_of_forall_mem_list
        (fun a ha b hb => by rw [hA a ha, hA b hb])
    · exact List.pairwise_of_forall_mem_list
        (fun a ha b hb => by rw [hB a ha, hB b hb])
    · intro a ha b hb
      rw [hA a ha, hB b hb]
      decide
    · exact List.pairwise_of_forall_mem_list
        (fun a ha b hb => by rw [hC a ha, hC b hb])
    · intro a ha b hb
      rw [hC b hb]
      rcases List.mem_append.mp ha with h1 | h1
      · rw [hA a h1]; decide
      · rw [hB a h1]; decide
  · rw [he, List.filter_append, List.filter_append]
    rw [List.filter_eq_self.mpr
        (fun e he' => by rw [hA e he']; decide),
      List.filter_eq_nil_iff.mpr
        (fun e he' => by rw [hB e he']; decide),
      List.filter_eq_nil_iff.mpr
        (fun e he' => by rw [hC e he']; decide),
      List.append_nil, List.append_nil]
    exact r003Excs_map_txn out.transactions _
  · rw [he, List.filter_append, List.filter_append]
    rw [List.filter_eq_nil_iff.mpr
        (fun e he' => by rw [hA e he']; decide),
      List.filter_eq_self.mpr
        (fun e he' => by rw [hB e he']; decide),
      List.filter_eq_nil_iff.mpr
        (fun e he' => by rw [hC e he']; decide),
      List.nil_append, List.append_nil]
    exact r004Excs_map_txn out.transactions
  · rw [he, List.filter_append, List.filter_append]
    rw [List.filter_eq_nil_iff.mpr
        (fun e he' => by rw [hA e he']; decide),
      List.filter_eq_nil_iff.mpr
        (fun e he' => by rw [hB e he']; decide),
      List.filter_eq_self.mpr
        (fun e he' => by rw [hC e he']; decide),
      List.nil_append, List.nil_append]
    exact r005Excs_map_txn out.reconciled

theorem claim8_witness :
    runPipeline sampleRows "t0" = Except.ok sampleOut ∧
    (List.Pairwise
      (fun a b => ruleRank a.rule_id ≤ ruleRank b.rule_id)
      sampleOut.exceptions ∧
    (sampleOut.exceptions.filter (fun e => e.rule_id == "R003")).map
        (fun e => e.txn_id) =
      (sampleOut.transactions.filter
          (r003Pred (sampleOut.master.map (fun m => m.customer_id)))).map
        (fun t => t.txn_id) ∧
    (sampleOut.exceptions.filter (fun e => e.rule_id == "R004")).map
        (fun e => e.txn_id) =
      (sampleOut.transactions.filter r004Pred).map (fun t => t.txn_id) ∧
    (sampleOut.exceptions.filter (fun e => e.rule_id == "R005")).map
        (fun e => e.txn_id) =
      (sampleOut.reconciled.filter
          (fun r => r.match_status == "UNMATCHED")).map
        (fun r => r.txn.txn_id)) :=
  ⟨rfl, claim8_exception_order sampleRows "t0" sampleOut rfl⟩

/-! ## C5: duplicates and the data-quality report -/

/-- A master table with a duplicated `customer_id` key. -/
def dupKeyMaster : List MasterRecord :=
  [ { customer_id := "7", customer_name := "cust_7",
      account_status := "ACTIVE" },
    { customer_id := "7", customer_name := "cust_7",
      account_status := "ACTIVE" } ]

/-- A master table with distinct keys, same shape as `dupKeyMaster`. -/
def freshKeyMaster : List MasterRecord :=
  [ { customer_id := "7", customer_name := "cust_7",
      account_status := "ACTIVE" },
    { customer_id := "8", customer_name := "cust_8",
      account_status := "ACTIVE" } ]

/-- A transaction table with a duplicated `txn_id`. -/
def dupIdTxns : List Transaction :=
  [ { txn_id := "X-0", customer_id := some "7", amount := some 5,
      txn_date := "2021-01-01", invoice := "X", stockcode := "S1",
      description := "widget", country := "UK" },
    { txn_id := "X-0", customer_id := some "8", amount := some 6,
      txn_date := "2021-01-01", invoice := "X", stockcode := "S2",
      description := "gadget", country := "UK" } ]

/-- The same transactions with distinct `txn_id`s. -/
def freshIdTxns : List Transaction :=
  [ { txn_id := "X-0", customer_id := some "7", amount := some 5,
      txn_date := "2021-01-01", invoice := "X", stockcode := "S1",
      description := "widget", country := "UK" },
    { txn_id := "X-1", customer_id := some "8", amount := some 6,
      txn_date := "2021-01-01", invoice := "X", stockcode := "S2",
      description := "gadget", country := "UK" } ]

/-- **C5 counterexample**: the duplicate detections are non-empty on the
duplicated tables and empty on the fresh ones, yet the produced
data-quality report is **identical** in both cases — duplicate
`customer_id`/`txn_id` values leave no trace in the report, so they are
not surfaced there as counts (nor in any other form). -/
theorem claim5_counterexample :
    dupMaster dupKeyMaster ≠ [] ∧ dupTxn dupIdTxns ≠ [] ∧
    dupMaster freshKeyMaster = [] ∧ dupTxn freshIdTxns = [] ∧
    dqReport dupKeyMaster dupIdTxns "t0" =
      dqReport freshKeyMaster freshIdTxns "t0" := by decide

/-- **C5 amended**: the script computes the duplicated-key rows
(`dupMaster`, `dupTxn`) but discards them; the data-quality report it
produces depends only on the per-column null counts, so duplicate keys
in master or transactions are silently ignored by the report. -/
theorem claim5_amended (ms ms' : List MasterRecord)
    (ts ts' : List Transaction) (now : String)
    (hc : (ts.filter (fun t => t.customer_id.isNone)).length =
      (ts'.filter (fun t => t.customer_id.isNone)).length)
    (ha : (ts.filter (fun t => t.amount.isNone)).length =
      (ts'.filter (fun t => t.amount.isNone)).length) :
    dqReport ms ts now = dqReport ms' ts' now := by
  unfold dqReport checkNullsMaster checkNullsTransactions
  rw [hc, ha]
  simp

theorem claim5_amended_witness :
    ((dupIdTxns.filter (fun t => t.customer_id.isNone)).length =
      (freshIdTxns.filter (fun t => t.customer_id.isNone)).length) ∧
    ((dupIdTxns.filter (fun t => t.amount.isNone)).length =
      (freshIdTxns.filter (fun t => t.amount.isNone)).length) ∧
    dqReport dupKeyMaster dupIdTxns "t0" =
      dqReport freshKeyMaster freshIdTxns "t0" :=
  ⟨by decide, by decide,
    claim5_amended dupKeyMaster freshKeyMaster dupIdTxns freshIdTxns "t0"
      (by decide) (by decide)⟩
